import Mathlib

/-!
Shallow embedding of the toggl-entry-annotator backend core
(`src/backend/main.py`, `src/backend/toggl.py`, `src/backend/cache.py`,
`src/backend/schema.py`, `src/backend/db.py`) and proofs about it.

The SQLite `time_entries` table is modelled as a list of `TimeEntry`
rows (primary-key uniqueness stated as a `Nodup` hypothesis where it
matters), `entry_notes` as a list of `NoteRow`, and the SQL statements
of the source as list-processing functions with the same semantics.
-/

namespace TEA

/-- A row of the `time_entries` table (`schema.py`, thirteen columns). -/
structure TimeEntry where
  entry_id : Int
  description : String
  project_id : Int
  project_name : String
  seconds : Int
  start : String
  stop : Option String
  at_ : String
  start_ts : Int
  stop_ts : Option Int
  at_ts : Int
  tag_ids : String
  tag_names : String
deriving DecidableEq, Repr

/-- A row of the `entry_notes` table (`schema.py`). -/
structure NoteRow where
  id : Nat
  entry_id : Int
  note_text : String
  created_at : String
deriving DecidableEq, Repr

/-- Comparison used by `ORDER BY t.start_ts` in `get_time_entries`. -/
def startLe (a b : TimeEntry) : Prop := a.start_ts ≤ b.start_ts

instance : DecidableRel startLe :=
  fun a b => inferInstanceAs (Decidable (a.start_ts ≤ b.start_ts))

instance : IsTotal TimeEntry startLe :=
  ⟨fun a b => Int.le_total a.start_ts b.start_ts⟩

instance : IsTrans TimeEntry startLe :=
  ⟨fun _ _ _ hab hbc => le_trans hab hbc⟩

/-- The row-selection predicate of the SQL in `get_time_entries`
(`main.py` lines 263-278): `start_ts >= ? AND start_ts < ?`. -/
def inWindow (startTs endTs : Int) (t : TimeEntry) : Bool :=
  decide (startTs ≤ t.start_ts) && decide (t.start_ts < endTs)

/-- The SQL query of `get_time_entries` over the modelled store:
select the `time_entries` rows in the half-open window, one output row
per entry (`GROUP BY t.entry_id` over a primary-keyed table), ordered
ascending by `start_ts`, each paired with its aggregated notes
(`LEFT JOIN entry_notes USING (entry_id)`; entries without notes get
the empty list via the `COALESCE`/`CASE` null-filtering). -/
def queryWindow (entries : List TimeEntry) (notes : List NoteRow)
    (startTs endTs : Int) : List (TimeEntry × List NoteRow) :=
  (List.insertionSort startLe (entries.filter (inWindow startTs endTs))).map
    (fun t => (t, notes.filter (fun n => n.entry_id == t.entry_id)))

/-- The `TimeEntry` rows of a `queryWindow` result. -/
def queryWindowRows (entries : List TimeEntry) (notes : List NoteRow)
    (startTs endTs : Int) : List TimeEntry :=
  (queryWindow entries notes startTs endTs).map Prod.fst

/-- Model of `_upsert_sqlite` (`toggl.py` lines 30-71): `INSERT ... ON
CONFLICT(entry_id) DO UPDATE SET` every column except `entry_id` from
the excluded (new) row. On a key match the stored row keeps its
`entry_id` and takes every other field from `e`; otherwise `e` is
inserted. -/
def upsertRow (store : List TimeEntry) (e : TimeEntry) : List TimeEntry :=
  if store.any (fun r => r.entry_id == e.entry_id) then
    store.map (fun r =>
      if r.entry_id == e.entry_id then { e with entry_id := r.entry_id } else r)
  else
    store ++ [e]

/-! ### Calendar dates and epoch arithmetic

Python `date` / `datetime` values are modelled through their day
number (days since 1970-01-01, the proleptic Gregorian calendar that
`datetime` uses) and microsecond-precision instants. -/

/-- Days since 1970-01-01 of a proleptic Gregorian civil date
(the arithmetic underlying Python `date` ordinals and
`datetime.timestamp`). -/
def daysFromCivil (y m d : Int) : Int :=
  let y2 : Int := if m ≤ 2 then y - 1 else y
  let era : Int := Int.fdiv y2 400
  let yoe : Int := y2 - era * 400
  let mp : Int := Int.emod (m + 9) 12
  let doy : Int := Int.fdiv (153 * mp + 2) 5 + d - 1
  let doe : Int := 365 * yoe + Int.fdiv yoe 4 - Int.fdiv yoe 100 + doy
  era * 146097 + doe - 719468

/-- Civil date `(y, m, d)` of a day number (inverse of
`daysFromCivil`); used to re-render UTC instants as ISO strings. -/
def civilFromDays (z : Int) : Int × Int × Int :=
  let z2 : Int := z + 719468
  let era : Int := Int.fdiv z2 146097
  let doe : Int := z2 - era * 146097
  let yoe : Int :=
    Int.fdiv (doe - Int.fdiv doe 1460 + Int.fdiv doe 36524 - Int.fdiv doe 146096) 365
  let y : Int := yoe + era * 400
  let doy : Int := doe - (365 * yoe + Int.fdiv yoe 4 - Int.fdiv yoe 100)
  let mp : Int := Int.fdiv (5 * doy + 2) 153
  let d : Int := doy - Int.fdiv (153 * mp + 2) 5 + 1
  let m : Int := mp + (if mp < 10 then 3 else -9)
  (if m ≤ 2 then y + 1 else y, m, d)

/-- Left-pad the decimal rendering of a nonnegative `Int` with zeros
to `w` digits (ISO field rendering). -/
def padInt (w : Nat) (n : Int) : String :=
  let s := toString n.toNat
  String.mk (List.replicate (w - s.length) '0') ++ s

/-- Render an epoch-second instant as Python
`datetime.isoformat` does for a UTC datetime with `microsecond=0`,
after the `.replace("+00:00", "Z")` of `_to_utc_iso_and_ts`:
`YYYY-MM-DDTHH:MM:SSZ`. -/
def renderUtc (sec : Int) : String :=
  let days := Int.fdiv sec 86400
  let sod := Int.emod sec 86400
  let c := civilFromDays days
  padInt 4 c.1 ++ "-" ++ padInt 2 c.2.1 ++ "-" ++ padInt 2 c.2.2 ++ "T" ++
    padInt 2 (Int.fdiv sod 3600) ++ ":" ++ padInt 2 (Int.emod (Int.fdiv sod 60) 60) ++
    ":" ++ padInt 2 (Int.emod sod 60) ++ "Z"

/-- The parsed form of an offset-carrying ISO-8601 string as
`datetime.fromisoformat` produces it in `_to_utc_iso_and_ts` (after
`iso_str.replace("Z", "+00:00")`, so a `Z` suffix is offset 0):
civil fields, microseconds, and the UTC offset in seconds. -/
structure IsoTimestamp where
  year : Int
  month : Int
  day : Int
  hour : Int
  minute : Int
  second : Int
  microsecond : Int
  offsetSeconds : Int
deriving DecidableEq, Repr

/-- The exact instant a parsed timestamp denotes, in microseconds
since the epoch (what `dt.timestamp()` computes exactly). -/
def totalMicros (t : IsoTimestamp) : Int :=
  (daysFromCivil t.year t.month t.day * 86400 +
    t.hour * 3600 + t.minute * 60 + t.second - t.offsetSeconds) * 1000000 +
    t.microsecond

/-- Model of `_to_utc_iso_and_ts` (`toggl.py` lines 22-27) on a parsed input:
convert to UTC, drop the microsecond field for the ISO rendering
(`dt_utc.replace(microsecond=0)`, i.e. floor to the second), and take
`int(dt_utc.timestamp())` for the epoch component — Python `int()` on
a float truncates toward zero. -/
def normalize (t : IsoTimestamp) : String × Int :=
  (renderUtc (Int.fdiv (totalMicros t) 1000000),
   Int.tdiv (totalMicros t) 1000000)

/-! ### Full-sync chunking (`sync_full`, `main.py` lines 109-152) -/

/-- One iteration step of the `sync_full` chunk loop: the chunk
starting at `s` ends at `current_start + timedelta(days=364)` clamped
to the overall end date. Dates are day numbers. -/
def chunkEnd (s e : Int) : Int := min (s + 364) e

/-- The `while current_start <= end_date_of_sync` loop of `sync_full`,
with explicit fuel (the loop advances by at least one day per
iteration, so `(e + 1 - s).toNat` iterations always suffice). Returns
the list of `(chunk_start, chunk_end)` ranges passed to
`toggl.sync_time_entries`. -/
def chunksFuel : Nat → Int → Int → List (Int × Int)
  | 0, _, _ => []
  | fuel + 1, s, e =>
    if s ≤ e then (s, chunkEnd s e) :: chunksFuel fuel (chunkEnd s e + 1) e
    else []

/-- The chunk ranges issued by `sync_full` from start day `s` to end
day `e`. -/
def chunks (s e : Int) : List (Int × Int) :=
  chunksFuel (e + 1 - s).toNat s e

/-- The running `total_synced_count` of the `sync_full` loop, where
`f cs ce` is the record count `toggl.sync_time_entries` returns for
the chunk `(cs, ce)` (same fuel-indexed loop as `chunksFuel`). -/
def syncFullFuel (f : Int → Int → Nat) : Nat → Int → Int → Nat
  | 0, _, _ => 0
  | fuel + 1, s, e =>
    if s ≤ e then f s (chunkEnd s e) + syncFullFuel f fuel (chunkEnd s e + 1) e
    else 0

/-- Total record count returned by `sync_full`. -/
def syncFullTotal (f : Int → Int → Nat) (s e : Int) : Nat :=
  syncFullFuel f (e + 1 - s).toNat s e

/-- Days in a month of the proleptic Gregorian calendar (used by the
`datetime.date` validation inside `strptime`). -/
def daysInMonth (y m : Nat) : Nat :=
  if m = 2 then (if (y % 4 = 0 && decide (y % 100 ≠ 0)) || y % 400 = 0 then 29 else 28)
  else if [4, 6, 9, 11].contains m then 30 else 31

/-- Split a character list on `-` separators (the field separation
`strptime` performs against the `"%Y-%m-%d"` format). -/
def splitOnDash : List Char → List (List Char)
  | [] => [[]]
  | c :: rest =>
    if c = '-' then [] :: splitOnDash rest
    else
      match splitOnDash rest with
      | [] => [[c]]
      | h :: t => (c :: h) :: t

/-- Decimal value of a nonempty all-digit field; `none` otherwise. -/
def digitsVal? (cs : List Char) : Option Nat :=
  if cs.isEmpty then none
  else if cs.all (fun c => 48 ≤ c.toNat && c.toNat ≤ 57) then
    some (cs.foldl (fun n c => n * 10 + (c.toNat - 48)) 0)
  else none

/-- Model of `datetime.strptime(s, "%Y-%m-%d").date()`: exactly three dash-
separated decimal fields, a four-digit year, one-or-two-digit month in
1..12 and day in 1..31, and the triple must be a real calendar date;
any other input raises (here: `none`). -/
def strptimeYmd (s : String) : Option (Int × Int × Int) :=
  match splitOnDash s.toList with
  | [ys, ms, ds] =>
    match digitsVal? ys, digitsVal? ms, digitsVal? ds with
    | some y, some m, some d =>
      if ys.length = 4 ∧ (ms.length = 1 ∨ ms.length = 2) ∧
          (ds.length = 1 ∨ ds.length = 2) ∧ 1 ≤ m ∧ m ≤ 12 ∧ 1 ≤ d ∧
          d ≤ daysInMonth y m then
        some ((y : Int), (m : Int), (d : Int))
      else none
    | _, _, _ => none
  | _ => none

/-- The start date `sync_full` actually uses (`main.py` lines
119-128): the `SYNC_START_DATE` environment value when present,
defaulting to `"2006-01-01"`; a `ValueError` from `strptime` is caught
and the fixed default `date(2006, 1, 1)` is used instead. -/
def effectiveStartDate (env : Option String) : Int × Int × Int :=
  (strptimeYmd (env.getD "2006-01-01")).getD (2006, 1, 1)

/-- The whole `sync_full` handler body on the happy path: resolve the
start date from the environment, chunk to `today`, sum the per-chunk
counts. It returns `(ok, records_synced)`; start-date parsing never
makes it fail. -/
def syncFullRun (f : Int → Int → Nat) (env : Option String) (today : Int) :
    Bool × Nat :=
  let st := effectiveStartDate env
  (true, syncFullTotal f (daysFromCivil st.1 st.2.1 st.2.2) today)

/-! ### Annotation store (`create_note`, `main.py` lines 297-307) -/

/-- The state behind a connection from `db.create_connection`: the two
tables, the `AUTOINCREMENT` counter of `entry_notes`, and whether the
connection ran `PRAGMA foreign_keys = ON` (`db.py` line 26 — always
`true` for connections this app creates). -/
structure DbState where
  timeEntries : List TimeEntry
  notes : List NoteRow
  nextNoteId : Nat
  foreignKeysOn : Bool
deriving Repr

/-- Model of `create_note`: `INSERT INTO entry_notes (entry_id, note_text)
VALUES (?, ?)` with no application-level existence check. The schema
(`schema.py` lines 28-35) declares `FOREIGN KEY (entry_id) REFERENCES
time_entries(entry_id)`, so with foreign keys enabled SQLite rejects
the insert when no parent row exists; otherwise the row is stored with
the next id and the clock default `created_at`, and the handler
returns the acknowledgement `"Note added"`. -/
def createNote (now : String) (s : DbState) (eid : Int) (txt : String) :
    Except String (DbState × String) :=
  if s.foreignKeysOn && !(s.timeEntries.any (fun t => t.entry_id == eid)) then
    Except.error "FOREIGN KEY constraint failed"
  else
    Except.ok
      ({ s with
          notes := s.notes ++ [⟨s.nextNoteId, eid, txt, now⟩],
          nextNoteId := s.nextNoteId + 1 }, "Note added")

/-! ### The `/time_entries` endpoint boundary (`main.py` lines 94-101
and 248-291) -/

/-- A Python `datetime` as FastAPI hands it to `get_time_entries`:
civil fields plus `tzinfo`, modelled by its UTC offset in seconds
(`none` for a naive datetime). -/
structure PyDt where
  year : Int
  month : Int
  day : Int
  hour : Int
  minute : Int
  second : Int
  microsecond : Int
  tz : Option Int
deriving DecidableEq, Repr

/-- Wall-clock microseconds of a `PyDt`, ignoring its offset. -/
def pyDtWallMicros (t : PyDt) : Int :=
  (daysFromCivil t.year t.month t.day * 86400 +
    t.hour * 3600 + t.minute * 60 + t.second) * 1000000 + t.microsecond

/-- Epoch microseconds of an aware `PyDt` with offset `off`. -/
def pyDtInstantMicros (t : PyDt) (off : Int) : Int :=
  pyDtWallMicros t - off * 1000000

/-- Python `a >= b` on datetimes: aware pairs compare instants, naive
pairs compare wall clocks, and a mixed pair raises `TypeError`. -/
def pyGe (a b : PyDt) : Except String Bool :=
  match a.tz, b.tz with
  | none, none => Except.ok (decide (pyDtWallMicros b ≤ pyDtWallMicros a))
  | some x, some y =>
    Except.ok (decide (pyDtInstantMicros b y ≤ pyDtInstantMicros a x))
  | _, _ =>
    Except.error "TypeError: cannot compare offset-naive and offset-aware datetimes"

/-- Model of `_epoch_from_dt` (`main.py` lines 94-101): raise `ValueError` on a
naive datetime, else `int(dt.timestamp())` (truncation toward zero). -/
def epochFromDt (t : PyDt) : Except String Int :=
  match t.tz with
  | none => Except.error "Datetime must be timezone-aware (RFC3339/ISO-8601)"
  | some off => Except.ok (Int.tdiv (pyDtInstantMicros t off) 1000000)

/-- How a failure escapes the `get_time_entries` handler: an
`HTTPException` carries its status code (client class here), while any
other uncaught exception (`TypeError`, `ValueError`) becomes a server
fault (HTTP 500) at the framework boundary. -/
inductive ApiError where
  | client (code : Nat) (msg : String)
  | server (msg : String)
deriving DecidableEq, Repr

/-- Model of `get_time_entries` (`main.py` lines 248-291): compare the bounds
(`start_iso >= end_iso` raises `HTTPException 400`), convert both
through `_epoch_from_dt`, then run the window query against the
store. Exceptions from the comparison or conversion escape as server
faults. -/
def getTimeEntries (a b : PyDt) (entries : List TimeEntry)
    (notes : List NoteRow) : Except ApiError (List (TimeEntry × List NoteRow)) :=
  match pyGe a b with
  | Except.error m => Except.error (ApiError.server m)
  | Except.ok true => Except.error (ApiError.client 400 "start_iso must be < end_iso")
  | Except.ok false =>
    match epochFromDt a with
    | Except.error m => Except.error (ApiError.server m)
    | Except.ok sTs =>
      match epochFromDt b with
      | Except.error m => Except.error (ApiError.server m)
      | Except.ok eTs => Except.ok (queryWindow entries notes sTs eTs)

/-! ### Project-name cache (`cache.py`) -/

/-- The module state of `cache.py`: the `_project_cache` global
(`none` = cold) plus an instrumentation counter of how many bulk
fetches (`_fetch_all_projects` calls) have happened. -/
structure CacheState where
  cache : Option (Int → Option String)
  fetches : Nat

/-- Model of `get_project_name` (`cache.py` lines 40-48) with the bulk-fetch
result modelled as the mapping `m` the network would return: populate
the cache on a cold call (one fetch), then `dict.get(project_id,
"Unknown Project")`. -/
def getProjectName (m : Int → Option String) (st : CacheState) (pid : Int) :
    String × CacheState :=
  match st.cache with
  | none => ((m pid).getD "Unknown Project", ⟨some m, st.fetches + 1⟩)
  | some c => ((c pid).getD "Unknown Project", st)

/-- A sequence of `get_project_name` calls threaded through the module
state. -/
def runCalls (m : Int → Option String) (st : CacheState) (pids : List Int) :
    CacheState :=
  pids.foldl (fun s pid => (getProjectName m s pid).2) st

/-! ### Pagination loop of `sync_time_entries` (`toggl.py` lines
98-150) -/

/-- One remote response page: the grouped rows (each a list of nested
raw time entries, represented by their ids) and the optional
`X-Next-ID` continuation header. -/
structure Page where
  rows : List (List Int)
  nextId : Option Int
deriving Repr

/-- Raw-entry count of a page (each nested entry increments
`records_synced` once). -/
def pageCount (p : Page) : Nat := (p.rows.map List.length).sum

/-- The `while True` pagination loop of `sync_time_entries`, run
against the trace `pages` of responses the remote would give to the
1st, 2nd, ... request. Returns `some (records_synced, requests_made)`;
`none` means the loop needed a response beyond the supplied trace.
Control flow of the source: an empty `rows` list breaks immediately;
otherwise every nested entry is counted (and upserted), then the
continuation header decides whether another request is issued. -/
def syncPages : List Page → Nat → Option (Nat × Nat)
  | [], _ => none
  | p :: rest, acc =>
    if p.rows.isEmpty then some (acc, 1)
    else
      match p.nextId with
      | none => some (acc + pageCount p, 1)
      | some _ =>
        match syncPages rest (acc + pageCount p) with
        | none => none
        | some (c, r) => some (c, r + 1)

/-! ## Helper lemmas -/

/-- The rows of a window query are the insertion sort of the filtered
store. -/
lemma queryWindowRows_eq (entries : List TimeEntry) (notes : List NoteRow)
    (startTs endTs : Int) :
    queryWindowRows entries notes startTs endTs =
      List.insertionSort startLe (entries.filter (inWindow startTs endTs)) := by
  unfold queryWindowRows queryWindow
  rw [List.map_map]
  exact List.map_id' _

lemma inWindow_iff (startTs endTs : Int) (t : TimeEntry) :
    inWindow startTs endTs t = true ↔
      startTs ≤ t.start_ts ∧ t.start_ts < endTs := by
  simp [inWindow]

/-- The P3 sample rows: five entries distinguished by `start_ts`. -/
def sampleEntry (id ts : Int) : TimeEntry :=
  ⟨id, "desc", 1, "proj", 60, "2025-01-01T00:00:00Z", none,
   "2025-01-01T00:00:00Z", ts, none, ts, "[]", "[]"⟩

/-- The P3 store: entries at the window start, the middle, the window
end, just before the start, and just before the end. -/
def p3Store : List TimeEntry :=
  [sampleEntry 10 1735689600, sampleEntry 11 1735732800,
   sampleEntry 12 1735776000, sampleEntry 13 1735689599,
   sampleEntry 14 1735775999]

/-- C1: `queryWindow` returns exactly the rows with
`startEpoch ≤ start_ts < endEpoch` (inclusive lower, exclusive upper
bound), ascending by `start_ts`; on the P3 store and the window
`[1735689600, 1735776000)` it returns exactly the entries at
1735689600, 1735732800 and 1735775999, in that order. -/
theorem queryWindow_halfOpen_ordered :
    ∀ (entries : List TimeEntry) (notes : List NoteRow) (startTs endTs : Int),
      List.Perm (queryWindowRows entries notes startTs endTs)
        (entries.filter (inWindow startTs endTs)) ∧
      List.Sorted startLe (queryWindowRows entries notes startTs endTs) ∧
      (∀ t, t ∈ queryWindowRows entries notes startTs endTs ↔
        t ∈ entries ∧ startTs ≤ t.start_ts ∧ t.start_ts < endTs) ∧
      queryWindowRows p3Store [] 1735689600 1735776000 =
        [sampleEntry 10 1735689600, sampleEntry 11 1735732800,
         sampleEntry 14 1735775999] := by
  intro entries notes startTs endTs
  refine ⟨?_, ?_, ?_, by decide⟩
  · rw [queryWindowRows_eq]
    exact List.perm_insertionSort startLe _
  · rw [queryWindowRows_eq]
    exact List.sorted_insertionSort startLe _
  · intro t
    rw [queryWindowRows_eq,
      (List.perm_insertionSort startLe _).mem_iff, List.mem_filter,
      inWindow_iff]

/-! ## C2: idempotent upsert -/

/-- The conflict-update function of `upsertRow` keeps the key column
of every row. -/
lemma replace_keeps_key (e r : TimeEntry) :
    (if r.entry_id == e.entry_id then ({ e with entry_id := r.entry_id } : TimeEntry)
      else r).entry_id = r.entry_id := by
  by_cases hk : r.entry_id = e.entry_id <;> simp [hk]

/-- Lemma: `upsertRow` preserves primary-key uniqueness. -/
lemma upsert_keys_nodup (store : List TimeEntry) (e : TimeEntry)
    (h : (store.map TimeEntry.entry_id).Nodup) :
    ((upsertRow store e).map TimeEntry.entry_id).Nodup := by
  unfold upsertRow
  by_cases hp : store.any (fun r => r.entry_id == e.entry_id)
  · rw [if_pos hp, List.map_map]
    have hsame : store.map (TimeEntry.entry_id ∘ fun r =>
        if r.entry_id == e.entry_id then { e with entry_id := r.entry_id } else r) =
        store.map TimeEntry.entry_id :=
      List.map_congr_left (fun r _ => replace_keeps_key e r)
    rw [hsame]; exact h
  · rw [if_neg hp]
    have hne : e.entry_id ∉ store.map TimeEntry.entry_id := by
      intro hmem
      rcases List.mem_map.mp hmem with ⟨r, hr, hre⟩
      exact hp (List.any_eq_true.mpr ⟨r, hr, by simp [hre]⟩)
    simp only [List.map_append, List.map_cons, List.map_nil]
    exact List.Nodup.append h (List.nodup_singleton _)
      (by simpa [List.disjoint_singleton] using hne)

/-- In a primary-keyed store containing `e`'s key, applying the
conflict update and filtering on the key yields exactly the updated
row. -/
lemma filter_map_replace (e : TimeEntry) : ∀ l : List TimeEntry,
    (l.map TimeEntry.entry_id).Nodup →
    l.any (fun r => r.entry_id == e.entry_id) = true →
    (l.map (fun r =>
        if r.entry_id == e.entry_id then { e with entry_id := r.entry_id } else r)).filter
      (fun r => r.entry_id == e.entry_id) = [e] := by
  intro l
  induction l with
  | nil => intro _ hp; simp at hp
  | cons a l ih =>
    intro h hp
    simp only [List.map_cons, List.nodup_cons] at h
    by_cases hk : a.entry_id = e.entry_id
    · have hrepl : ({ e with entry_id := a.entry_id } : TimeEntry) = e := by rw [hk]
      have hnone : ∀ r ∈ l, ¬(r.entry_id == e.entry_id) = true := by
        intro r hr hre
        exact h.1 (hk ▸ List.mem_map.mpr ⟨r, hr, (by simpa using hre : r.entry_id = e.entry_id).symm ▸ rfl⟩)
      have hmap : l.map (fun r =>
          if r.entry_id == e.entry_id then { e with entry_id := r.entry_id } else r) = l := by
        rw [List.map_congr_left (g := fun r => r) (fun r hr => by rw [if_neg (hnone r hr)]),
          List.map_id']
      have hfil : l.filter (fun r => r.entry_id == e.entry_id) = [] :=
        List.filter_eq_nil_iff.mpr hnone
      simp only [List.map_cons, if_pos (by simpa using hk : (a.entry_id == e.entry_id) = true),
        hrepl, hmap, List.filter_cons, beq_self_eq_true, if_pos]
      simp [hfil]
    · have hkb : ¬(a.entry_id == e.entry_id) = true := by simpa using hk
      have hpl : l.any (fun r => r.entry_id == e.entry_id) = true := by
        rcases List.any_eq_true.mp hp with ⟨r, hr, hre⟩
        rcases List.mem_cons.mp hr with rfl | hrl
        · exact absurd hre hkb
        · exact List.any_eq_true.mpr ⟨r, hrl, hre⟩
      simp only [List.map_cons, if_neg hkb, List.filter_cons]
      simpa [hkb] using ih h.2 hpl

/-- After upserting `e` into a primary-keyed store, the rows with
`e`'s key are exactly `[e]`. -/
lemma upsert_filter_key (store : List TimeEntry) (e : TimeEntry)
    (h : (store.map TimeEntry.entry_id).Nodup) :
    (upsertRow store e).filter (fun r => r.entry_id == e.entry_id) = [e] := by
  unfold upsertRow
  by_cases hp : store.any (fun r => r.entry_id == e.entry_id)
  · rw [if_pos hp]
    exact filter_map_replace e store h hp
  · rw [if_neg hp]
    have hnone : ∀ r ∈ store, ¬(r.entry_id == e.entry_id) = true := by
      intro r hr hre
      exact hp (List.any_eq_true.mpr ⟨r, hr, hre⟩)
    rw [List.filter_append, List.filter_eq_nil_iff.mpr hnone]
    simp

/-- C2: upserting `e1` then `e2` with the same `entry_id` leaves
exactly one row for that key, and that row is `e2` in every field — no
field of `e1` survives. -/
theorem upsert_last_write_wins (store : List TimeEntry) (e1 e2 : TimeEntry)
    (_hid : e1.entry_id = e2.entry_id)
    (hpk : (store.map TimeEntry.entry_id).Nodup) :
    (upsertRow (upsertRow store e1) e2).filter
        (fun r => r.entry_id == e2.entry_id) = [e2] ∧
      ((upsertRow (upsertRow store e1) e2).filter
        (fun r => r.entry_id == e2.entry_id)).length = 1 := by
  have h1 := upsert_keys_nodup store e1 hpk
  refine ⟨upsert_filter_key _ e2 h1, ?_⟩
  rw [upsert_filter_key _ e2 h1]
  rfl

/-- Witness for C2 at a concrete store and pair of records. -/
theorem upsert_last_write_wins_witness :
    (sampleEntry 5 1).entry_id = (sampleEntry 5 2).entry_id ∧
      (([sampleEntry 7 0].map TimeEntry.entry_id).Nodup) ∧
      (upsertRow (upsertRow [sampleEntry 7 0] (sampleEntry 5 1)) (sampleEntry 5 2)).filter
        (fun r => r.entry_id == (sampleEntry 5 2).entry_id) = [sampleEntry 5 2] :=
  ⟨by decide, by decide,
    (upsert_last_write_wins [sampleEntry 7 0] (sampleEntry 5 1) (sampleEntry 5 2)
      (by decide) (by decide)).1⟩

/-! ## C3: full-sync chunking -/

lemma chunksFuel_nil (fuel : Nat) (s e : Int) (h : e < s) :
    chunksFuel fuel s e = [] := by
  cases fuel with
  | zero => rfl
  | succ n => simp [chunksFuel, not_le.mpr h]

lemma chunksFuel_cons (fuel : Nat) (s e : Int) (h : s ≤ e) :
    chunksFuel (fuel + 1) s e =
      (s, chunkEnd s e) :: chunksFuel fuel (chunkEnd s e + 1) e := by
  simp [chunksFuel, h]

/-- Every chunk ends at its start plus 364 days, clamped to the
overall end, and is nonempty. -/
lemma chunksFuel_shape : ∀ (fuel : Nat) (s e : Int),
    ∀ c ∈ chunksFuel fuel s e,
      c.2 = min (c.1 + 364) e ∧ c.1 ≤ c.2 ∧ c.2 ≤ c.1 + 364 := by
  intro fuel
  induction fuel with
  | zero => intro s e c hc; simp [chunksFuel] at hc
  | succ n ih =>
    intro s e c hc
    by_cases h : s ≤ e
    · rw [chunksFuel_cons n s e h] at hc
      rcases List.mem_cons.mp hc with rfl | hc2
      · refine ⟨rfl, ?_, ?_⟩ <;> simp only [chunkEnd] <;> omega
      · exact ih _ e c hc2
    · rw [chunksFuel_nil _ _ _ (not_le.mp h)] at hc
      simp at hc

/-- The head of a nonempty chunk list starts at `s`. -/
lemma chunksFuel_head (fuel : Nat) (s e : Int) :
    ∀ c ∈ (chunksFuel fuel s e).head?, c.1 = s := by
  intro c hc
  cases fuel with
  | zero => simp [chunksFuel] at hc
  | succ n =>
    by_cases h : s ≤ e
    · rw [chunksFuel_cons n s e h] at hc
      simp at hc
      rw [← hc]
    · rw [chunksFuel_nil _ _ _ (not_le.mp h)] at hc
      simp at hc

/-- Consecutive chunks are adjacent: the next starts one day after
the previous ends. -/
lemma chunksFuel_chain : ∀ (fuel : Nat) (s e : Int),
    List.Chain' (fun c d => d.1 = c.2 + 1) (chunksFuel fuel s e) := by
  intro fuel
  induction fuel with
  | zero => intro s e; simp [chunksFuel]
  | succ n ih =>
    intro s e
    by_cases h : s ≤ e
    · rw [chunksFuel_cons n s e h]
      refine List.chain'_cons'.mpr ⟨?_, ih _ e⟩
      intro d hd
      exact chunksFuel_head n (chunkEnd s e + 1) e d hd
    · rw [chunksFuel_nil _ _ _ (not_le.mp h)]
      exact List.chain'_nil

lemma getLast?_cons_cons (a b : α) (l : List α) :
    (a :: b :: l).getLast? = (b :: l).getLast? := by
  simp [List.getLast?_cons_cons]

/-- With enough fuel the final chunk ends exactly at the overall end
date. -/
lemma chunksFuel_last : ∀ (fuel : Nat) (s e : Int), s ≤ e →
    (e + 1 - s).toNat ≤ fuel →
    ((chunksFuel fuel s e).getLast?).map Prod.snd = some e := by
  intro fuel
  induction fuel with
  | zero => intro s e h hf; omega
  | succ n ih =>
    intro s e h hf
    rw [chunksFuel_cons n s e h]
    by_cases hend : e ≤ s + 364
    · have hce : chunkEnd s e = e := by simp [chunkEnd]; omega
      rw [hce, chunksFuel_nil n (e + 1) e (by omega)]
      rfl
    · have hce : chunkEnd s e = s + 364 := by simp [chunkEnd]; omega
      have hle : s + 365 ≤ e := by omega
      have hrec := ih (s + 365) e hle (by omega)
      have hne : chunksFuel n (s + 365) e ≠ [] := by
        intro hnil
        rw [hnil] at hrec
        simp at hrec
      rcases List.exists_cons_of_ne_nil hne with ⟨c, t, hct⟩
      rw [hce]
      rw [show s + 364 + 1 = s + 365 by ring, hct, getLast?_cons_cons]
      rw [hct] at hrec
      exact hrec

/-- The loop total is the sum of the per-chunk counts. -/
lemma syncFullFuel_sum (f : Int → Int → Nat) : ∀ (fuel : Nat) (s e : Int),
    syncFullFuel f fuel s e = ((chunksFuel fuel s e).map (fun c => f c.1 c.2)).sum := by
  intro fuel
  induction fuel with
  | zero => intro s e; rfl
  | succ n ih =>
    intro s e
    by_cases h : s ≤ e
    · rw [chunksFuel_cons n s e h]
      simp only [syncFullFuel, if_pos h, List.map_cons, List.sum_cons]
      rw [ih]
    · simp [syncFullFuel, chunksFuel, not_le.mp h, h]

/-- C3: `sync_full` splits `[s, e]` into consecutive chunks of at most
365 days (`chunk_end = chunk_start + 364` clamped to `e`), the first
starting at `s`, the last ending at `e`, each next chunk starting one
day after the previous ends, and returns the sum of the per-chunk
`sync_time_entries` counts; for start 2023-01-15 and today 2025-06-17
the chunks are exactly (2023-01-15, 2024-01-14), (2024-01-15,
2025-01-13), (2025-01-14, 2025-06-17). -/
theorem syncFull_chunking (s e : Int) (h : s ≤ e) :
    List.Chain' (fun c d => d.1 = c.2 + 1) (chunks s e) ∧
      (∀ c ∈ chunks s e, c.2 = min (c.1 + 364) e ∧ c.1 ≤ c.2 ∧ c.2 ≤ c.1 + 364) ∧
      ((chunks s e).head?).map Prod.fst = some s ∧
      ((chunks s e).getLast?).map Prod.snd = some e ∧
      (∀ f, syncFullTotal f s e = ((chunks s e).map (fun c => f c.1 c.2)).sum) ∧
      chunks (daysFromCivil 2023 1 15) (daysFromCivil 2025 6 17) =
        [(daysFromCivil 2023 1 15, daysFromCivil 2024 1 14),
         (daysFromCivil 2024 1 15, daysFromCivil 2025 1 13),
         (daysFromCivil 2025 1 14, daysFromCivil 2025 6 17)] := by
  refine ⟨chunksFuel_chain _ s e, chunksFuel_shape _ s e, ?_, chunksFuel_last _ s e h le_rfl,
    fun f => syncFullFuel_sum f _ s e, by decide⟩
  have hf : 1 ≤ (e + 1 - s).toNat := by omega
  unfold chunks
  rcases Nat.exists_eq_add_of_le hf with ⟨n, hn⟩
  rw [hn, Nat.add_comm, chunksFuel_cons n s e h]
  rfl

/-- Witness for C3 at the concrete 2023-01-15 .. 2025-06-17 range. -/
theorem syncFull_chunking_witness :
    daysFromCivil 2023 1 15 ≤ daysFromCivil 2025 6 17 ∧
      chunks (daysFromCivil 2023 1 15) (daysFromCivil 2025 6 17) =
        [(daysFromCivil 2023 1 15, daysFromCivil 2024 1 14),
         (daysFromCivil 2024 1 15, daysFromCivil 2025 1 13),
         (daysFromCivil 2025 1 14, daysFromCivil 2025 6 17)] :=
  ⟨by decide,
    (syncFull_chunking (daysFromCivil 2023 1 15) (daysFromCivil 2025 6 17)
      (by decide)).2.2.2.2.2⟩

/-! ## C4 and C5: the time normalizer -/

/-- C4: `_to_utc_iso_and_ts` depends only on the instant its input
denotes — two parsed timestamps with the same exact epoch value (any
offsets) produce identical `(utc_iso, epoch_seconds)` pairs; in
particular 2025-01-01T07:00:00-05:00 and 2025-01-01T12:00:00Z both
yield `("2025-01-01T12:00:00Z", 1735732800)`. -/
theorem normalize_timezone_invariance (t1 t2 : IsoTimestamp)
    (h : totalMicros t1 = totalMicros t2) :
    normalize t1 = normalize t2 ∧
      normalize ⟨2025, 1, 1, 7, 0, 0, 0, -18000⟩ = ("2025-01-01T12:00:00Z", 1735732800) ∧
      normalize ⟨2025, 1, 1, 12, 0, 0, 0, 0⟩ = ("2025-01-01T12:00:00Z", 1735732800) := by
  refine ⟨?_, by decide, by decide⟩
  unfold normalize
  rw [h]

/-- Witness for C4: the two P2 inputs denote the same instant, and the
theorem applies to them. -/
theorem normalize_timezone_invariance_witness :
    totalMicros ⟨2025, 1, 1, 7, 0, 0, 0, -18000⟩ =
        totalMicros ⟨2025, 1, 1, 12, 0, 0, 0, 0⟩ ∧
      normalize ⟨2025, 1, 1, 7, 0, 0, 0, -18000⟩ =
        normalize ⟨2025, 1, 1, 12, 0, 0, 0, 0⟩ :=
  ⟨by decide,
    (normalize_timezone_invariance ⟨2025, 1, 1, 7, 0, 0, 0, -18000⟩
      ⟨2025, 1, 1, 12, 0, 0, 0, 0⟩ (by decide)).1⟩

/-- Counterexample to C5 as stated: for the pre-epoch instant
1969-12-31T23:59:59.500000Z the exact epoch value is -0.5 s, whose
floor is -1, but `int(dt.timestamp())` truncates toward zero and
returns 0, while the ISO component renders the floored instant -1 —
so `epoch_seconds` is not the floor and the two components denote
different instants. -/
theorem normalize_floor_cex :
    totalMicros ⟨1969, 12, 31, 23, 59, 59, 500000, 0⟩ = -500000 ∧
      Int.fdiv (totalMicros ⟨1969, 12, 31, 23, 59, 59, 500000, 0⟩) 1000000 = -1 ∧
      normalize ⟨1969, 12, 31, 23, 59, 59, 500000, 0⟩ = ("1969-12-31T23:59:59Z", 0) ∧
      renderUtc (-1) = "1969-12-31T23:59:59Z" ∧
      (normalize ⟨1969, 12, 31, 23, 59, 59, 500000, 0⟩).2 ≠
        Int.fdiv (totalMicros ⟨1969, 12, 31, 23, 59, 59, 500000, 0⟩) 1000000 := by
  refine ⟨by decide, by decide, by decide, by decide, by decide⟩

/-- C5 as amended: the ISO component always re-renders the floored
instant, and the epoch component is truncation toward zero — which
agrees with flooring exactly when the instant is at or after the
epoch, so for nonnegative instants the two components denote the same
(floored) instant. -/
theorem normalize_truncation_amended (t : IsoTimestamp) :
    (normalize t).1 = renderUtc (Int.fdiv (totalMicros t) 1000000) ∧
      (normalize t).2 = Int.tdiv (totalMicros t) 1000000 ∧
      (0 ≤ totalMicros t → (normalize t).2 = Int.fdiv (totalMicros t) 1000000) := by
  refine ⟨rfl, rfl, fun h => ?_⟩
  show Int.tdiv (totalMicros t) 1000000 = Int.fdiv (totalMicros t) 1000000
  rw [Int.tdiv_eq_ediv h (by norm_num), Int.fdiv_eq_ediv _ (by norm_num)]

/-- Witness for C5 (amended) at a nonnegative fractional instant. -/
theorem normalize_truncation_amended_witness :
    0 ≤ totalMicros ⟨2025, 1, 1, 12, 0, 0, 500000, 0⟩ ∧
      (normalize ⟨2025, 1, 1, 12, 0, 0, 500000, 0⟩).2 =
        Int.fdiv (totalMicros ⟨2025, 1, 1, 12, 0, 0, 500000, 0⟩) 1000000 :=
  ⟨by decide,
    (normalize_truncation_amended ⟨2025, 1, 1, 12, 0, 0, 500000, 0⟩).2.2 (by decide)⟩

/-! ## C6: note creation and the foreign-key constraint -/

/-- Counterexample to C6 as stated: on a connection from
`db.create_connection` (which runs `PRAGMA foreign_keys = ON`),
creating a note for an `entry_id` with no `time_entries` row fails the
store write with a foreign-key violation — orphaned notes are not
permitted, even though `create_note` itself performs no existence
check. -/
theorem createNote_orphan_cex :
    createNote "2025-01-01T00:00:00Z" ⟨[], [], 1, true⟩ 42 "orphan" =
      Except.error "FOREIGN KEY constraint failed" := rfl

/-- C6 as amended: `create_note` performs no application-level
existence check, but the connection enforces the schema's foreign
key, so the insert succeeds (persisting the note and returning the
`"Note added"` acknowledgement) exactly when a parent `time_entries`
row exists; otherwise the store write itself fails. -/
theorem createNote_foreign_key_amended (now : String) (s : DbState) (eid : Int)
    (txt : String) (hfk : s.foreignKeysOn = true) :
    ((s.timeEntries.any (fun t => t.entry_id == eid)) = true →
        createNote now s eid txt =
          Except.ok ({ s with
            notes := s.notes ++ [⟨s.nextNoteId, eid, txt, now⟩],
            nextNoteId := s.nextNoteId + 1 }, "Note added")) ∧
      ((s.timeEntries.any (fun t => t.entry_id == eid)) = false →
        createNote now s eid txt = Except.error "FOREIGN KEY constraint failed") := by
  constructor
  · intro hparent
    unfold createNote
    rw [if_neg (by simp [hfk, hparent])]
  · intro hnoparent
    unfold createNote
    rw [if_pos (by simp [hfk, hnoparent])]

/-- Witness for C6 (amended): with a parent row present the note is
stored and acknowledged. -/
theorem createNote_foreign_key_amended_witness :
    (⟨[sampleEntry 42 0], [], 1, true⟩ : DbState).foreignKeysOn = true ∧
      ((⟨[sampleEntry 42 0], [], 1, true⟩ : DbState).timeEntries.any
        (fun t => t.entry_id == 42)) = true ∧
      createNote "T" ⟨[sampleEntry 42 0], [], 1, true⟩ 42 "hello" =
        Except.ok (⟨[sampleEntry 42 0], [⟨1, 42, "hello", "T"⟩], 2, true⟩, "Note added") :=
  ⟨rfl, by decide,
    (createNote_foreign_key_amended "T" ⟨[sampleEntry 42 0], [], 1, true⟩ 42 "hello"
      rfl).1 (by decide)⟩

/-! ## C7: naive instants at the query boundary -/

/-- Counterexample to C7 as stated: a `/time_entries` call with two
naive instants in the right order reaches `_epoch_from_dt`, whose
`ValueError` escapes the handler as a server fault (HTTP 500), not a
client-class validation error. -/
theorem naive_window_server_fault_cex :
    getTimeEntries ⟨2025, 1, 1, 0, 0, 0, 0, none⟩ ⟨2025, 1, 2, 0, 0, 0, 0, none⟩ [] [] =
      Except.error (ApiError.server "Datetime must be timezone-aware (RFC3339/ISO-8601)") := rfl

/-- C7 as amended: a call with a naive instant always fails before any
store access (the result does not depend on the store), but the
failure is a server fault — either the `TypeError` of comparing a
naive with an aware datetime or the `ValueError` of `_epoch_from_dt` —
except that an inverted range is still caught first as the 400 client
error; no client-class naivety rejection exists. -/
theorem naive_window_rejection_amended (a b : PyDt) (entries : List TimeEntry)
    (notes : List NoteRow) (h : a.tz = none ∨ b.tz = none) :
    getTimeEntries a b entries notes = getTimeEntries a b [] [] ∧
      ((∃ m, getTimeEntries a b entries notes = Except.error (ApiError.server m)) ∨
        getTimeEntries a b entries notes =
          Except.error (ApiError.client 400 "start_iso must be < end_iso")) ∧
      (pyGe a b = Except.ok false →
        getTimeEntries a b entries notes =
          Except.error (ApiError.server "Datetime must be timezone-aware (RFC3339/ISO-8601)")) := by
  rcases ha : a.tz with _ | x <;> rcases hb : b.tz with _ | y
  · unfold getTimeEntries pyGe epochFromDt
    rw [ha, hb]
    by_cases hord : pyDtWallMicros b ≤ pyDtWallMicros a
    · simp [hord]
    · simp [hord]
  · unfold getTimeEntries pyGe
    rw [ha, hb]
    exact ⟨rfl, Or.inl ⟨_, rfl⟩, fun hge => by simp [pyGe, ha, hb] at hge⟩
  · unfold getTimeEntries pyGe
    rw [ha, hb]
    exact ⟨rfl, Or.inl ⟨_, rfl⟩, fun hge => by simp [pyGe, ha, hb] at hge⟩
  · rcases h with h | h
    · rw [ha] at h; exact absurd h (by simp)
    · rw [hb] at h; exact absurd h (by simp)

/-- Witness for C7 (amended) at two concrete naive instants over a
nonempty store. -/
theorem naive_window_rejection_amended_witness :
    ((⟨2025, 1, 1, 0, 0, 0, 0, none⟩ : PyDt).tz = none ∨
        (⟨2025, 1, 2, 0, 0, 0, 0, none⟩ : PyDt).tz = none) ∧
      getTimeEntries ⟨2025, 1, 1, 0, 0, 0, 0, none⟩ ⟨2025, 1, 2, 0, 0, 0, 0, none⟩
          p3Store [] =
        getTimeEntries ⟨2025, 1, 1, 0, 0, 0, 0, none⟩ ⟨2025, 1, 2, 0, 0, 0, 0, none⟩ [] [] :=
  ⟨Or.inl rfl,
    (naive_window_rejection_amended ⟨2025, 1, 1, 0, 0, 0, 0, none⟩
      ⟨2025, 1, 2, 0, 0, 0, 0, none⟩ p3Store [] (Or.inl rfl)).1⟩

/-! ## C8: the project-name cache -/

/-- A call on a warm cache leaves the module state untouched. -/
lemma getProjectName_warm (m c : Int → Option String) (st : CacheState) (pid : Int)
    (h : st.cache = some c) :
    getProjectName m st pid = ((c pid).getD "Unknown Project", st) := by
  unfold getProjectName
  rw [h]

/-- A run over a warm cache never changes the state. -/
lemma runCalls_warm (m c : Int → Option String) : ∀ (pids : List Int) (st : CacheState),
    st.cache = some c → runCalls m st pids = st := by
  intro pids
  induction pids with
  | nil => intro st _; rfl
  | cons p l ih =>
    intro st h
    unfold runCalls
    rw [List.foldl_cons, getProjectName_warm m c st p h]
    exact ih st h

/-- C8: the bulk fetch happens at most once per process — the first
call on a cold cache performs exactly one fetch and stores the
mapping, every call on a warm cache performs zero fetches and leaves
the state untouched, any nonempty call sequence from cold ends with
exactly one fetch performed, and a lookup miss returns the sentinel
`"Unknown Project"` (without refetching). -/
theorem project_cache_single_fetch (m c : Int → Option String) (pid : Int)
    (pids : List Int) (st : CacheState) (hwarm : st.cache = some c) :
    (getProjectName m ⟨none, 0⟩ pid).2.fetches = 1 ∧
      (getProjectName m ⟨none, 0⟩ pid).2.cache = some m ∧
      (getProjectName m st pid).2 = st ∧
      (runCalls m ⟨none, 0⟩ []).fetches = 0 ∧
      (runCalls m ⟨none, 0⟩ (pid :: pids)).fetches = 1 ∧
      (m pid = none → (getProjectName m ⟨none, 0⟩ pid).1 = "Unknown Project") ∧
      (c pid = none → (getProjectName m st pid).1 = "Unknown Project") := by
  refine ⟨rfl, rfl, ?_, rfl, ?_, ?_, ?_⟩
  · rw [getProjectName_warm m c st pid hwarm]
  · unfold runCalls
    rw [List.foldl_cons]
    have h1 : (getProjectName m ⟨none, 0⟩ pid).2 = ⟨some m, 1⟩ := rfl
    rw [h1]
    have h2 := runCalls_warm m m pids ⟨some m, 1⟩ rfl
    unfold runCalls at h2
    rw [h2]
  · intro hm
    unfold getProjectName
    simp [hm]
  · intro hc
    rw [getProjectName_warm m c st pid hwarm]
    simp [hc]

/-- Witness for C8 at a concrete mapping, warm state and id sequence. -/
theorem project_cache_single_fetch_witness :
    (⟨some (fun i => if i = 1 then some "Alpha" else none), 1⟩ : CacheState).cache =
        some (fun i => if i = 1 then some "Alpha" else none) ∧
      (runCalls (fun i => if i = 1 then some "Alpha" else none) ⟨none, 0⟩
        [1, 2, 1, 99]).fetches = 1 :=
  ⟨rfl,
    (project_cache_single_fetch (fun i => if i = 1 then some "Alpha" else none)
      (fun i => if i = 1 then some "Alpha" else none) 1 [2, 1, 99]
      ⟨some (fun i => if i = 1 then some "Alpha" else none), 1⟩ rfl).2.2.2.2.1⟩

/-! ## C9: empty-page termination of the pagination loop -/

/-- C9: if the remote returns any number of nonempty pages that all
carry a continuation token and then an empty page, the loop stops at
the empty page: it returns the count accumulated so far, has issued
exactly one request per consumed page, and never requests anything
after the empty page (the result does not depend on `rest`). -/
theorem sync_empty_page_terminates (front rest : List Page) (tok : Option Int)
    (acc : Nat) (h : ∀ p ∈ front, p.rows ≠ [] ∧ p.nextId ≠ none) :
    syncPages (front ++ ⟨[], tok⟩ :: rest) acc =
      some (acc + (front.map pageCount).sum, front.length + 1) := by
  induction front generalizing acc with
  | nil => simp [syncPages]
  | cons p l ih =>
    have hp := h p (List.mem_cons_self p l)
    have hl : ∀ q ∈ l, q.rows ≠ [] ∧ q.nextId ≠ none :=
      fun q hq => h q (List.mem_cons_of_mem p hq)
    rw [List.cons_append]
    unfold syncPages
    rw [if_neg (by simp [hp.1])]
    rcases hnext : p.nextId with _ | n
    · exact absurd hnext hp.2
    · rw [ih (acc + pageCount p) hl]
      simp only [List.map_cons, List.sum_cons, List.length_cons]
      refine congrArg some ?_
      refine Prod.ext ?_ rfl
      show acc + pageCount p + (l.map pageCount).sum = acc + (pageCount p + (l.map pageCount).sum)
      omega

/-- Witness for C9: one nonempty tokened page, then an empty page that
itself carries a token, then an unreachable page. -/
theorem sync_empty_page_terminates_witness :
    (∀ p ∈ [(⟨[[1], [2, 3]], some 5⟩ : Page)], p.rows ≠ [] ∧ p.nextId ≠ none) ∧
      syncPages ([(⟨[[1], [2, 3]], some 5⟩ : Page)] ++ ⟨[], some 9⟩ :: [⟨[[7]], none⟩]) 0 =
        some (3, 2) :=
  ⟨by decide,
    sync_empty_page_terminates [⟨[[1], [2, 3]], some 5⟩] [⟨[[7]], none⟩] (some 9) 0
      (by decide)⟩

/-! ## C10: malformed SYNC_START_DATE falls back to 2006-01-01 -/

/-- C10: when the configured start-date string does not parse as
`YYYY-MM-DD`, `sync_full` does not fail — it uses the fixed default
start date 2006-01-01 and proceeds, returning the usual successful
result. -/
theorem syncFull_fallback_default_start (s : String) (h : strptimeYmd s = none) :
    effectiveStartDate (some s) = (2006, 1, 1) ∧
      (∀ (f : Int → Int → Nat) (today : Int),
        syncFullRun f (some s) today =
          (true, syncFullTotal f (daysFromCivil 2006 1 1) today)) := by
  have heff : effectiveStartDate (some s) = (2006, 1, 1) := by
    unfold effectiveStartDate
    rw [Option.getD_some, h]
    rfl
  refine ⟨heff, fun f today => ?_⟩
  unfold syncFullRun
  rw [heff]

/-- Witness for C10 at a concrete malformed date string. -/
theorem syncFull_fallback_default_start_witness :
    strptimeYmd "01/15/2023" = none ∧
      effectiveStartDate (some "01/15/2023") = (2006, 1, 1) :=
  ⟨by decide, (syncFull_fallback_default_start "01/15/2023" (by decide)).1⟩

end TEA
